import Mathlib

/-!
Verification of the IRC video-encoding bot (`src/bot.py`).

The development shallowly embeds the bot's processing pipeline:

* `extract_video_urls` (bot.py lines 82-88): regex scan of a message for
  video URLs, modelled by a small pattern language together with a
  `findall` that mirrors `re.findall`'s leftmost, non-overlapping,
  greedy-match discipline (all five configured patterns are of the shape
  literal/optional-literal sequence followed by a final one-or-more
  character class, which the pattern type captures exactly).
* the FIFO job queue (`queue.Queue`, used at lines 35, 67, 80, 94):
  modelled as a list with `qput` appending at the back and `qget` taking
  the front; a `qget` on the empty queue yields `none`, standing for the
  blocking wait.
* `download_and_encode` (lines 126-244) and `check_nvenc_available`
  (lines 116-124): every external effect (directory creation, the yt-dlp
  probe and download, the encoder listing, the two ffmpeg invocations and
  the input-file deletion) is an entry of an environment record `Env`;
  subprocess results are `PyResult` values where `PyResult.exc` stands
  for the call raising a Python exception.  The embedding returns, next
  to the `(success, output_file)` pair the Python function returns, the
  trace of external invocations actually performed.
* the worker loop `process_videos` (lines 90-114): modelled on a finite
  list of queued jobs, each with its own environment; `workerStep` is one
  iteration of the `while True` body.

Characters are modelled at ASCII granularity: Python's `\w` class (which
is unicode-aware) is rendered as `Char.isAlphanum || c = '_'`, which
agrees with it on all ASCII inputs appearing in the claims.
-/

/-- The outcome of a Python call that can raise: `ok v` is a normal return,
`exc` is a raised exception (caught by some enclosing `try`). -/
inductive PyResult (α : Type) where
  | ok (val : α) : PyResult α
  | exc : PyResult α

/-- The fields of `datetime.now()` that `strftime("%m-%d-%y_%H:%M")` reads. -/
structure DateTime where
  year : Nat
  month : Nat
  day : Nat
  hour : Nat
  minute : Nat

/-- Zero-padded two-digit rendering of a field, as `strftime` prints `%m`,
`%d`, `%y`, `%H` and `%M` (each of which is below 100 for a real
`datetime`). -/
def pad2 (n : Nat) : String :=
  if n < 10 then "0" ++ toString n else toString n

/-- `now.strftime("%m-%d-%y_%H:%M")` (bot.py line 131). -/
def strftime_stamp (d : DateTime) : String :=
  pad2 d.month ++ "-" ++ pad2 d.day ++ "-" ++ pad2 (d.year % 100) ++ "_"
    ++ pad2 d.hour ++ ":" ++ pad2 d.minute

/-- The characters Python's `str.strip()` removes. -/
def isPySpace (c : Char) : Bool :=
  c = ' ' || c = '\t' || c = '\n' || c = '\r' || c = '\x0b' || c = '\x0c'

/-- `str.strip()` on the character list of a string. -/
def stripL (s : List Char) : List Char :=
  ((s.dropWhile isPySpace).reverse.dropWhile isPySpace).reverse

/-- Python's `str.split('\n')`: splitting on an explicit separator never
yields the empty list (`"".split('\n') == ['']`). -/
def splitLines (s : List Char) : List (List Char) :=
  match s with
  | [] => [[]]
  | c :: rest =>
    let r := splitLines rest
    if c = '\n' then [] :: r
    else
      match r with
      | [] => [[c]]
      | l :: ls => (c :: l) :: ls

/-- Lines 149-150: `lines = result.stdout.strip().split('\n');
title = lines[0] if lines else "video"`.  (With an explicit separator the
split is never empty, so the `"video"` default is unreachable; it is kept
to mirror the source.) -/
def titleOf (stdout : String) : String :=
  let lines := splitLines (stripL stdout.toList)
  match lines with
  | [] => "video"
  | t :: _ => String.mk t

/-- The character class `[\w\-_\.]` of line 153 (ASCII reading of `\w`). -/
def keepChar (c : Char) : Bool :=
  c.isAlphanum || c = '_' || c = '-' || c = '.'

/-- Line 153: `re.sub(r'[^\w\-_\.]', '_', title)[:50]` — every character
outside the class is replaced by an underscore and the result is truncated
to 50 characters. -/
def safeTitle (title : String) : String :=
  String.mk ((title.toList.map (fun c => if keepChar c then c else '_')).take 50)

/-- Line 176: `f"{safe_title}-{timestamp}-x220.mp4"`. -/
def outputFilename (safe_title timestamp : String) : String :=
  safe_title ++ "-" ++ timestamp ++ "-x220.mp4"

/-- `os.path.basename` (line 101) for the slash-separated paths the bot
builds. -/
def basename (p : String) : String :=
  String.mk ((p.toList.reverse.takeWhile (fun c => c ≠ '/')).reverse)

/-- Whether `pat` occurs as a contiguous substring of `s` (Python's
`pat in s`, line 122). -/
def listContains (pat : List Char) : List Char → Bool
  | [] => pat.isEmpty
  | c :: rest => pat.isPrefixOf (c :: rest) || listContains pat rest

/-- Python's `pat in s` on strings. -/
def containsStr (s pat : String) : Bool :=
  listContains pat.toList s.toList

/-- The external world of one `download_and_encode` job.  `timeline n` is
the wall clock after `n` external invocations have been performed (the
single `datetime.now()` of line 130 runs before any of them, so it reads
`timeline 0`).  Each `PyResult` field is the outcome of the corresponding
external call; `exc` means that call raised. -/
structure Env where
  timeline : Nat → DateTime
  /-- `temp_dir.mkdir(exist_ok=True)`, line 135. -/
  mkdirRes : PyResult Unit
  /-- `subprocess.run(info_cmd, capture_output=True, ...)`, line 144:
  returncode and stdout. -/
  infoRun : PyResult (Int × String)
  /-- `subprocess.run(download_cmd, ...)`, line 162: returncode. -/
  downloadRun : PyResult Int
  /-- `list(temp_dir.glob("input_video.*"))`, line 168. -/
  globResult : List String
  /-- `subprocess.run(["ffmpeg", "-hide_banner", "-encoders"], ...)`,
  line 119: returncode and stdout (the returncode is ignored by the
  source, only the stdout is inspected). -/
  encodersRun : PyResult (Int × String)
  /-- `subprocess.run(nvenc_cmd)`, line 199: returncode. -/
  nvencRun : PyResult Int
  /-- `subprocess.run(cpu_cmd)`, line 222: returncode. -/
  cpuRun : PyResult Int
  /-- `input_file.unlink()`, line 235. -/
  unlinkRes : PyResult Unit

/-- One external invocation performed by a job, in order. -/
inductive Ev where
  | mkdirEv
  | infoCmd
  | downloadCmd
  | encodersCmd
  | nvencCmd
  | cpuCmd
  | unlinkEv
deriving DecidableEq

/-- Lines 116-124: `check_nvenc_available` runs the encoder listing,
returns whether `"h264_nvenc"` occurs in its stdout, and turns any raised
exception into `False` via its bare `except`. -/
def check_nvenc_available (env : Env) : Bool :=
  match env.encodersRun with
  | .exc => false
  | .ok (_rc, out) => containsStr out "h264_nvenc"

/-- The body of `download_and_encode` (lines 128-240), before the
enclosing `try`/`except` of lines 128/242: the returned `Except` is
`error ()` exactly when the body raises (an `exc` outcome of a call that
is not wrapped in an inner `try`), and `ok (success, output_file)` for
the `return` statements.  The first component is the trace of external
invocations performed. -/
def dae_body (env : Env) (_url : String) : List Ev × Except Unit (Bool × Option String) :=
  -- lines 130-131: the timestamp is taken before every external call
  let timestamp := strftime_stamp (env.timeline 0)
  -- line 135
  match env.mkdirRes with
  | .exc => ([Ev.mkdirEv], Except.error ())
  | .ok _ =>
  -- lines 139-147
  match env.infoRun with
  | .exc => ([Ev.mkdirEv, Ev.infoCmd], Except.error ())
  | .ok (rc, stdout) =>
  if rc ≠ 0 then ([Ev.mkdirEv, Ev.infoCmd], Except.ok (false, none))
  else
  -- lines 149-153
  let title := titleOf stdout
  let safe_title := safeTitle title
  -- lines 156-165
  match env.downloadRun with
  | .exc => ([Ev.mkdirEv, Ev.infoCmd, Ev.downloadCmd], Except.error ())
  | .ok rd =>
  if rd ≠ 0 then ([Ev.mkdirEv, Ev.infoCmd, Ev.downloadCmd], Except.ok (false, none))
  else
  -- lines 168-173
  match env.globResult with
  | [] => ([Ev.mkdirEv, Ev.infoCmd, Ev.downloadCmd], Except.ok (false, none))
  | _input_file :: _ =>
  -- lines 176-177
  let output_path := "/app/output/" ++ outputFilename safe_title timestamp
  -- line 183: the capability probe runs here, once per job
  let tr0 := [Ev.mkdirEv, Ev.infoCmd, Ev.downloadCmd, Ev.encodersCmd]
  if check_nvenc_available env then
    -- lines 187-204
    match env.nvencRun with
    | .exc => (tr0 ++ [Ev.nvencCmd], Except.error ())
    | .ok rn =>
    if rn = 0 then
      -- lines 200-202 then 233-240
      (tr0 ++ [Ev.nvencCmd, Ev.unlinkEv], Except.ok (true, some output_path))
    else
      -- lines 209-227: fallback after a failed hardware attempt
      match env.cpuRun with
      | .exc => (tr0 ++ [Ev.nvencCmd, Ev.cpuCmd], Except.error ())
      | .ok rcpu =>
      if rcpu ≠ 0 then (tr0 ++ [Ev.nvencCmd, Ev.cpuCmd], Except.ok (false, none))
      else (tr0 ++ [Ev.nvencCmd, Ev.cpuCmd, Ev.unlinkEv], Except.ok (true, some output_path))
  else
    -- lines 206, 209-227: no capability, software path directly
    match env.cpuRun with
    | .exc => (tr0 ++ [Ev.cpuCmd], Except.error ())
    | .ok rcpu =>
    if rcpu ≠ 0 then (tr0 ++ [Ev.cpuCmd], Except.ok (false, none))
    else (tr0 ++ [Ev.cpuCmd, Ev.unlinkEv], Except.ok (true, some output_path))

/-- `download_and_encode` (lines 126-244): the body with its enclosing
`try`/`except Exception` which converts any raise into
`return False, None`. -/
def download_and_encode (env : Env) (url : String) : List Ev × (Bool × Option String) :=
  match dae_body env url with
  | (tr, Except.error _) => (tr, (false, none))
  | (tr, Except.ok r) => (tr, r)

/-- The log records written by the cleanup block (lines 233-238): on a
successful `unlink` the source logs `"Cleaned up temporary files"`; a
raising `unlink` reaches the bare `except: pass`, which writes no log
record at all. -/
def cleanup_log_records (unlink : PyResult Unit) : List String :=
  match unlink with
  | .ok _ => ["Cleaned up temporary files"]
  | .exc => []

/-- The per-job part of the worker's world: the environment of its
`download_and_encode` call, and whether the `connection.privmsg` the
worker then performs raises (lines 104/108 — such a raise is caught by
the loop's `except Exception` and the notification is simply lost). -/
structure JobEnv where
  dae : Env
  notifyRaises : Bool

/-- A notification the worker sends to the channel: lines 103 and 107. -/
inductive Note where
  | success (fileUrl requester : String)
  | failure (url requester : String)
deriving DecidableEq

/-- One iteration of the `while True` body of `process_videos`
(lines 92-114) on a dequeued `(url, requester)` job: run
`download_and_encode`, then send the success notification when
`success and output_file` is truthy and the failure notification
otherwise; a raising `privmsg` is caught by the `except` and sends
nothing. -/
def workerStep (je : JobEnv) (job : String × String) : Option Note :=
  let r := (download_and_encode je.dae job.1).2
  if je.notifyRaises then none
  else
    match r with
    | (true, some f) =>
      if f.isEmpty then some (Note.failure job.1 job.2)
      else some (Note.success ("http://10.0.0.2:8084/" ++ basename f) job.2)
    | _ => some (Note.failure job.1 job.2)

/-- The worker loop `process_videos` run over a finite backlog of queued
jobs: the `while True` with its catch-all `except` handles every job to a
terminal state and then continues with the next one, so on a finite
backlog it is the fold of `workerStep`. -/
def process_videos : List (JobEnv × (String × String)) → List (Option Note)
  | [] => []
  | (je, job) :: rest => workerStep je job :: process_videos rest

/-- `queue.Queue.put` (lines 67, 80): appends at the back, never blocks. -/
def qput (q : List α) (x : α) : List α := q ++ [x]

/-- `queue.Queue.get` (line 94): takes the front of the queue; `none`
models the blocking wait on an empty queue. -/
def qget : List α → Option (α × List α)
  | [] => none
  | x :: rest => some (x, rest)

/-- Repeatedly dequeuing until the queue is empty. -/
def qdrain : List α → List α
  | [] => []
  | x :: rest => x :: qdrain rest

/-- An element of the pattern language the five URL regexes of
lines 40-47 are written in: a literal, or a greedy-optional literal
(`s?`, `(?:www\.)?`). -/
inductive PItem where
  | lit : List Char → PItem
  | opt : List Char → PItem

/-- One of the configured URL regexes: each is a sequence of
literal/optional-literal items followed by a final greedy one-or-more
character class (`[\w-]+` or `\d+`). -/
structure UrlPattern where
  parts : List PItem
  tailClass : Char → Bool

/-- The length of the longest prefix of `s` whose characters satisfy `f`. -/
def countLeading (f : Char → Bool) : List Char → Nat
  | [] => 0
  | c :: rest => if f c then countLeading f rest + 1 else 0

/-- Match a pattern against a prefix of `s`, returning the number of
characters of the match, with Python's greedy backtracking discipline:
an optional literal is tried present-first, and the final character
class takes the longest possible (necessarily nonempty) run. -/
def matchSeq (items : List PItem) (f : Char → Bool) (s : List Char) : Option Nat :=
  match items with
  | [] =>
    let k := countLeading f s
    if k = 0 then none else some k
  | PItem.lit l :: rest =>
    if l.isPrefixOf s then (matchSeq rest f (s.drop l.length)).map (· + l.length)
    else none
  | PItem.opt l :: rest =>
    if l.isPrefixOf s then
      match matchSeq rest f (s.drop l.length) with
      | some n => some (n + l.length)
      | none => matchSeq rest f s
    else matchSeq rest f s

/-- Match a configured pattern at the start of `s`. -/
def matchPattern (p : UrlPattern) (s : List Char) : Option Nat :=
  matchSeq p.parts p.tailClass s

/-- `re.findall` for one pattern: scan left to right, at each position
take the match if there is one and continue after it, otherwise advance
one character.  The fuel argument (instantiated with the string's length,
which every step decreases) only makes the recursion structural. -/
def findallF (p : UrlPattern) : Nat → List Char → List (List Char)
  | 0, _ => []
  | _ + 1, [] => []
  | fuel + 1, c :: rest =>
    match matchPattern p (c :: rest) with
    | some n => (c :: rest).take n :: findallF p fuel ((c :: rest).drop n)
    | none => findallF p fuel rest

/-- `re.findall(pattern, message)` for one configured pattern. -/
def findall (p : UrlPattern) (s : List Char) : List (List Char) :=
  findallF p s.length s

/-- The ASCII reading of `\w`: letters, digits and the underscore. -/
def isWordChar (c : Char) : Bool := c.isAlphanum || c = '_'

/-- The class `[\w-]`. -/
def isWordDash (c : Char) : Bool := isWordChar c || c = '-'

/-- `r'https?://(?:www\.)?youtube\.com/watch\?v=[\w-]+'` (line 41). -/
def patternYoutubeWatch : UrlPattern :=
  ⟨[PItem.lit "http".toList, PItem.opt "s".toList, PItem.lit "://".toList,
    PItem.opt "www.".toList, PItem.lit "youtube.com/watch?v=".toList], isWordDash⟩

/-- `r'https?://youtu\.be/[\w-]+'` (line 42). -/
def patternYoutuBe : UrlPattern :=
  ⟨[PItem.lit "http".toList, PItem.opt "s".toList, PItem.lit "://youtu.be/".toList],
    isWordDash⟩

/-- `r'https?://(?:www\.)?vimeo\.com/\d+'` (line 43). -/
def patternVimeo : UrlPattern :=
  ⟨[PItem.lit "http".toList, PItem.opt "s".toList, PItem.lit "://".toList,
    PItem.opt "www.".toList, PItem.lit "vimeo.com/".toList], Char.isDigit⟩

/-- `r'https?://(?:www\.)?dailymotion\.com/video/[\w-]+'` (line 44). -/
def patternDailymotion : UrlPattern :=
  ⟨[PItem.lit "http".toList, PItem.opt "s".toList, PItem.lit "://".toList,
    PItem.opt "www.".toList, PItem.lit "dailymotion.com/video/".toList], isWordDash⟩

/-- `r'https?://(?:www\.)?twitch\.tv/videos/\d+'` (line 45). -/
def patternTwitch : UrlPattern :=
  ⟨[PItem.lit "http".toList, PItem.opt "s".toList, PItem.lit "://".toList,
    PItem.opt "www.".toList, PItem.lit "twitch.tv/videos/".toList], Char.isDigit⟩

/-- `self.url_patterns` (lines 40-47). -/
def url_patterns : List UrlPattern :=
  [patternYoutubeWatch, patternYoutuBe, patternVimeo, patternDailymotion, patternTwitch]

/-- `extract_video_urls` (lines 82-88): for each pattern in order, extend
the accumulator with that pattern's `findall` matches — no deduplication
of any kind. -/
def extract_video_urls (message : String) : List String :=
  (url_patterns.foldl (fun urls pat => urls ++ findall pat message.toList) []).map
    (fun l => String.mk l)

/-- Declarative matching semantics for a pattern's item sequence: the
matched text is the concatenation of each literal, a present-or-absent
choice for each optional literal, and a final nonempty run of characters
of the tail class. -/
inductive SeqMatches : List PItem → (Char → Bool) → List Char → Prop
  | done {f : Char → Bool} {cs : List Char} :
      cs ≠ [] → (∀ c ∈ cs, f c = true) → SeqMatches [] f cs
  | lit {f : Char → Bool} {l u : List Char} {rest : List PItem} :
      SeqMatches rest f u → SeqMatches (PItem.lit l :: rest) f (l ++ u)
  | optSome {f : Char → Bool} {l u : List Char} {rest : List PItem} :
      SeqMatches rest f u → SeqMatches (PItem.opt l :: rest) f (l ++ u)
  | optNone {f : Char → Bool} {l : List Char} {u : List Char} {rest : List PItem} :
      SeqMatches rest f u → SeqMatches (PItem.opt l :: rest) f u

/-- `u` is a full match of the configured pattern `p`. -/
def PatMatches (p : UrlPattern) (u : List Char) : Prop :=
  SeqMatches p.parts p.tailClass u

/-- A world in which every external call succeeds: the probe output lists
`h264_nvenc`, both encoders exit 0, and the requested video's title is
`"My Video!!"` at 14:30 on 2024-03-05. -/
def envBase : Env where
  timeline := fun _ => ⟨2024, 3, 5, 14, 30⟩
  mkdirRes := .ok ()
  infoRun := .ok (0, "My Video!!\nMy Video!!.mp4")
  downloadRun := .ok 0
  globResult := ["input_video.mp4"]
  encodersRun := .ok (0, "V..... h264_nvenc NVIDIA NVENC H.264 encoder")
  nvencRun := .ok 0
  cpuRun := .ok 0
  unlinkRes := .ok ()

/-- As `envBase`, but the encoder listing does not mention `h264_nvenc`,
so the job takes the software path. -/
def env7 : Env :=
  { envBase with encodersRun := .ok (0, "no hardware encoders here") }

/-- A job whose metadata probe raises inside `download_and_encode`
(and whose notification send works). -/
def jeExc : JobEnv :=
  ⟨{ envBase with infoRun := .exc }, false⟩

/-- A world where the metadata probe exits 1 (fetch fails). -/
def envInfoFail : Env :=
  { envBase with infoRun := .ok (1, "") }

/-- A world where the encoder-listing subprocess itself raises. -/
def envProbeExc : Env :=
  { envBase with encodersRun := .exc }

/-! ### Helper lemmas -/

theorem process_videos_length (l : List (JobEnv × (String × String))) :
    (process_videos l).length = l.length := by
  induction l with
  | nil => rfl
  | cons hd tl ih => cases hd; simp [process_videos, ih]

theorem foldl_qput (js : List α) : ∀ q : List α, js.foldl qput q = q ++ js := by
  induction js with
  | nil => intro q; simp
  | cons x xs ih => intro q; simp [qput, ih]

theorem qdrain_id (l : List α) : qdrain l = l := by
  induction l with
  | nil => rfl
  | cons x xs ih => simp [qdrain, ih]

/-! ### Claim theorems -/

/-- C4: the job queue is FIFO: `put` appends and always succeeds (adding
exactly one element), `get` on an empty queue has no job to return (the
blocking wait), a single `put` then `get` returns the same job content
unmodified, `get` always returns the oldest element, and N `put`s
followed by N `get`s return the jobs in exactly their arrival order. -/
theorem queue_fifo_order :
    (∀ j : String × String, qget (qput [] j) = some (j, []))
  ∧ (∀ js : List (String × String), qdrain (js.foldl qput []) = js)
  ∧ (∀ (q : List (String × String)) (j : String × String),
      qput q j = q ++ [j] ∧ (qput q j).length = q.length + 1)
  ∧ qget ([] : List (String × String)) = none
  ∧ (∀ (x : String × String) (r : List (String × String)), qget (x :: r) = some (x, r)) := by
  refine ⟨fun j => rfl, fun js => ?_, fun q j => ⟨rfl, by simp [qput]⟩, rfl, fun x r => rfl⟩
  rw [foldl_qput]
  simpa using qdrain_id js

/-- C7 counterexample: for the title `"My Video!!"` at timestamp
`03-05-24_14:30`, the pipeline produces the filename
`My_Video__-03-05-24_14:30-x220.mp4` — each of the three disallowed
characters (the space and both `!`) is replaced by an underscore — and
not the claimed `My_Video-03-05-24_14:30-x220.mp4`. -/
theorem sanitize_example_cx :
    (download_and_encode env7 "https://youtu.be/abc").2
      = (true, some "/app/output/My_Video__-03-05-24_14:30-x220.mp4")
  ∧ (download_and_encode env7 "https://youtu.be/abc").2
      ≠ (true, some "/app/output/My_Video-03-05-24_14:30-x220.mp4")
  ∧ safeTitle "My Video!!" ≠ "My_Video" := by
  refine ⟨rfl, by decide, by decide⟩

/-- C7 (amended): sanitizing `"My Video!!"` replaces the space and both
exclamation marks with underscores, giving `My_Video__`, and the job for
that title at timestamp `03-05-24_14:30` produces the output filename
`My_Video__-03-05-24_14:30-x220.mp4` (truncation does not apply: the
title is shorter than the 50-character limit). -/
theorem sanitize_example_amended :
    safeTitle "My Video!!" = "My_Video__"
  ∧ outputFilename (safeTitle "My Video!!") (strftime_stamp ⟨2024, 3, 5, 14, 30⟩)
      = "My_Video__-03-05-24_14:30-x220.mp4"
  ∧ (download_and_encode env7 "https://youtu.be/abc").2
      = (true, some ("/app/output/" ++ "My_Video__-03-05-24_14:30-x220.mp4")) :=
  ⟨rfl, rfl, rfl⟩

/-- C8 counterexample: when the input-file deletion raises, the cleanup
block (lines 233-238) writes no log record at all — the failure reaches
`except: pass` — so the deletion failure is not logged. -/
theorem cleanup_unlogged_cx :
    cleanup_log_records PyResult.exc = [] ∧ cleanup_log_records (PyResult.ok ()) ≠ [] := by
  exact ⟨rfl, by decide⟩

/-- C8 (amended): deletion of the input file is best-effort: the result
of `download_and_encode` never depends on the deletion outcome (so a
deletion failure cannot turn a successful job into a failure) and a job
that reaches a successful encode still returns success when the deletion
raises; the failure is swallowed silently (no log record), not
escalated. -/
theorem cleanup_best_effort :
    (∀ (env : Env) (url : String) (u : PyResult Unit),
      download_and_encode { env with unlinkRes := u } url = download_and_encode env url)
  ∧ (download_and_encode { envBase with unlinkRes := PyResult.exc } "u").2
      = (true, some "/app/output/My_Video__-03-05-24_14:30-x220.mp4")
  ∧ cleanup_log_records PyResult.exc = List.nil := by
  refine ⟨fun env url u => ?_, rfl, rfl⟩
  cases env
  rfl

/-- C1: an unexpected exception raised inside `download_and_encode`
(during fetching or encoding) is caught at the job boundary — the job
returns `(False, None)`, the worker sends exactly one failure
notification for it — and the worker loop goes on to process the rest of
the backlog exactly as it would have: no single job's failure terminates
the loop. -/
theorem worker_survives_job_exception (je : JobEnv) (job : String × String)
    (rest : List (JobEnv × (String × String)))
    (hexc : (dae_body je.dae job.1).2 = Except.error ())
    (hn : je.notifyRaises = false) :
    (download_and_encode je.dae job.1).2 = (false, none)
  ∧ process_videos ((je, job) :: rest)
      = some (Note.failure job.1 job.2) :: process_videos rest
  ∧ (process_videos ((je, job) :: rest)).length = rest.length + 1 := by
  have h1 : (download_and_encode je.dae job.1).2 = (false, none) := by
    unfold download_and_encode
    rcases h : dae_body je.dae job.1 with ⟨tr, r⟩
    rw [h] at hexc
    simp only at hexc
    rw [hexc]
  refine ⟨h1, ?_, ?_⟩
  · show workerStep je job :: process_videos rest = _
    unfold workerStep
    rw [h1, hn]
    simp
  · rw [process_videos_length]
    simp

/-- C1 witness: a concrete backlog whose head job's metadata probe
raises: the worker converts it to a failure notification and the
(empty) remainder of the backlog is processed unchanged. -/
theorem worker_survives_witness :
    (download_and_encode jeExc.dae ("u", "nick").1).2 = (false, none)
  ∧ process_videos ((jeExc, ("u", "nick")) :: [])
      = some (Note.failure ("u", "nick").1 ("u", "nick").2) :: process_videos []
  ∧ (process_videos ((jeExc, ("u", "nick")) :: [])).length
      = ([] : List (JobEnv × (String × String))).length + 1 :=
  worker_survives_job_exception jeExc ("u", "nick") [] rfl rfl

/-- C2: for a job whose fetch succeeded (probe exit 0, download exit 0, an
input file present) and whose encode invocations return exit codes, the
attempts are strictly ordered with no parallelism — the capability probe
(`encodersCmd`) runs first, right after the fetch; the hardware command
runs only when the probe reports capability, and a zero exit ends the job
successfully with no software invocation; the software command runs
exactly when the probe reported no capability or the hardware invocation
exited non-zero, succeeding on exit 0 and failing the whole job
otherwise.  Each case is the full invocation trace and result. -/
theorem encode_fallback_order (env : Env) (url : String) (si : String) (rn rc : Int)
    (f : String) (fs : List String)
    (hmk : env.mkdirRes = PyResult.ok ())
    (hinfo : env.infoRun = PyResult.ok (0, si))
    (hdl : env.downloadRun = PyResult.ok 0)
    (hglob : env.globResult = f :: fs)
    (hnv : env.nvencRun = PyResult.ok rn)
    (hcpu : env.cpuRun = PyResult.ok rc) :
    (check_nvenc_available env = true → rn = 0 →
      download_and_encode env url
        = ([Ev.mkdirEv, Ev.infoCmd, Ev.downloadCmd, Ev.encodersCmd, Ev.nvencCmd, Ev.unlinkEv],
           (true, some ("/app/output/" ++ outputFilename (safeTitle (titleOf si))
              (strftime_stamp (env.timeline 0))))))
  ∧ (check_nvenc_available env = true → rn ≠ 0 → rc = 0 →
      download_and_encode env url
        = ([Ev.mkdirEv, Ev.infoCmd, Ev.downloadCmd, Ev.encodersCmd, Ev.nvencCmd, Ev.cpuCmd,
            Ev.unlinkEv],
           (true, some ("/app/output/" ++ outputFilename (safeTitle (titleOf si))
              (strftime_stamp (env.timeline 0))))))
  ∧ (check_nvenc_available env = true → rn ≠ 0 → rc ≠ 0 →
      download_and_encode env url
        = ([Ev.mkdirEv, Ev.infoCmd, Ev.downloadCmd, Ev.encodersCmd, Ev.nvencCmd, Ev.cpuCmd],
           (false, none)))
  ∧ (check_nvenc_available env = false → rc = 0 →
      download_and_encode env url
        = ([Ev.mkdirEv, Ev.infoCmd, Ev.downloadCmd, Ev.encodersCmd, Ev.cpuCmd, Ev.unlinkEv],
           (true, some ("/app/output/" ++ outputFilename (safeTitle (titleOf si))
              (strftime_stamp (env.timeline 0))))))
  ∧ (check_nvenc_available env = false → rc ≠ 0 →
      download_and_encode env url
        = ([Ev.mkdirEv, Ev.infoCmd, Ev.downloadCmd, Ev.encodersCmd, Ev.cpuCmd],
           (false, none))) := by
  refine ⟨?_, ?_, ?_, ?_, ?_⟩
  · intro hc h0
    simp [download_and_encode, dae_body, hmk, hinfo, hdl, hglob, hnv, hcpu, hc, h0]
  · intro hc h1 h2
    simp [download_and_encode, dae_body, hmk, hinfo, hdl, hglob, hnv, hcpu, hc, h1, h2]
  · intro hc h1 h2
    simp [download_and_encode, dae_body, hmk, hinfo, hdl, hglob, hnv, hcpu, hc, h1, h2]
  · intro hc h2
    simp [download_and_encode, dae_body, hmk, hinfo, hdl, hglob, hnv, hcpu, hc, h2]
  · intro hc h2
    simp [download_and_encode, dae_body, hmk, hinfo, hdl, hglob, hnv, hcpu, hc, h2]

/-- C2 witness: in `envBase` (capability present, hardware encode exits 0)
the job performs exactly the probe-then-hardware trace and succeeds
without a software invocation. -/
theorem encode_fallback_witness :
    download_and_encode envBase "u"
      = ([Ev.mkdirEv, Ev.infoCmd, Ev.downloadCmd, Ev.encodersCmd, Ev.nvencCmd, Ev.unlinkEv],
         (true, some ("/app/output/"
            ++ outputFilename (safeTitle (titleOf "My Video!!\nMy Video!!.mp4"))
                 (strftime_stamp (envBase.timeline 0))))) :=
  (encode_fallback_order envBase "u" "My Video!!\nMy Video!!.mp4" 0 0 "input_video.mp4" []
    rfl rfl rfl rfl rfl rfl).1 rfl rfl

/-- C3: with the fetch invocations returning exit codes, the fetch stage
fails — `(False, None)` with no encoder invocation of any kind in the
trace — exactly when the metadata probe exits non-zero, or the download
exits non-zero, or no `input_video.*` file is found after the download;
and whenever none of these happen, the trace continues past the fetch
into the capability probe (`encodersCmd`), i.e. the fetch stage did not
fail. -/
theorem fetch_failure_conditions (env : Env) (url : String) (ri rd : Int) (si : String)
    (hmk : env.mkdirRes = PyResult.ok ())
    (hinfo : env.infoRun = PyResult.ok (ri, si))
    (hdl : env.downloadRun = PyResult.ok rd) :
    (ri ≠ 0 → download_and_encode env url = ([Ev.mkdirEv, Ev.infoCmd], (false, none)))
  ∧ (ri = 0 → rd ≠ 0 →
      download_and_encode env url = ([Ev.mkdirEv, Ev.infoCmd, Ev.downloadCmd], (false, none)))
  ∧ (ri = 0 → rd = 0 → env.globResult = [] →
      download_and_encode env url = ([Ev.mkdirEv, Ev.infoCmd, Ev.downloadCmd], (false, none)))
  ∧ (ri = 0 → rd = 0 → env.globResult ≠ [] →
      (download_and_encode env url).1.take 4
        = [Ev.mkdirEv, Ev.infoCmd, Ev.downloadCmd, Ev.encodersCmd]) := by
  refine ⟨?_, ?_, ?_, ?_⟩
  · intro h
    simp [download_and_encode, dae_body, hmk, hinfo, h]
  · intro h1 h2
    simp [download_and_encode, dae_body, hmk, hinfo, hdl, h1, h2]
  · intro h1 h2 h3
    simp [download_and_encode, dae_body, hmk, hinfo, hdl, h1, h2, h3]
  · intro h1 h2 hne
    subst h1; subst h2
    obtain ⟨g, gs, hg⟩ : ∃ g gs, env.globResult = g :: gs := by
      cases hgl : env.globResult with
      | nil => exact absurd hgl hne
      | cons g gs => exact ⟨g, gs, rfl⟩
    by_cases hc : check_nvenc_available env
    · cases hn : env.nvencRun with
      | exc => simp [download_and_encode, dae_body, hmk, hinfo, hdl, hg, hc, hn]
      | ok rn =>
        by_cases hrn : rn = 0
        · simp [download_and_encode, dae_body, hmk, hinfo, hdl, hg, hc, hn, hrn]
        · cases hcp : env.cpuRun with
          | exc => simp [download_and_encode, dae_body, hmk, hinfo, hdl, hg, hc, hn, hrn, hcp]
          | ok rc =>
            by_cases hrc : rc = 0 <;>
              simp [download_and_encode, dae_body, hmk, hinfo, hdl, hg, hc, hn, hrn, hcp, hrc]
    · cases hcp : env.cpuRun with
      | exc => simp [download_and_encode, dae_body, hmk, hinfo, hdl, hg, hc, hcp]
      | ok rc =>
        by_cases hrc : rc = 0 <;>
          simp [download_and_encode, dae_body, hmk, hinfo, hdl, hg, hc, hcp, hrc]

/-- C3 witness: a probe exiting 1 fails the job right after the metadata
probe — no download, no encoder invocation. -/
theorem fetch_failure_witness :
    download_and_encode envInfoFail "u" = ([Ev.mkdirEv, Ev.infoCmd], (false, none)) :=
  (fetch_failure_conditions envInfoFail "u" 1 0 "" rfl rfl rfl).1 (by decide)

/-- C6: every successful job returns the path
`/app/output/{sanitized_title}-{MM-DD-YY_HH:MM}-x220.mp4` whose timestamp
component renders `timeline 0` — the clock as read by the single
`datetime.now()` at job start, before the probe and download invocations —
whatever the clock later reads. -/
theorem output_name_from_start_time (env : Env) (url : String) (ri : Int) (si f : String)
    (hinfo : env.infoRun = PyResult.ok (ri, si))
    (hsucc : (download_and_encode env url).2 = (true, some f)) :
    f = "/app/output/"
        ++ outputFilename (safeTitle (titleOf si)) (strftime_stamp (env.timeline 0)) := by
  cases hm : env.mkdirRes with
  | exc => simp [download_and_encode, dae_body, hm] at hsucc
  | ok u =>
    by_cases hri : ri = 0
    · subst hri
      cases hd : env.downloadRun with
      | exc => simp [download_and_encode, dae_body, hm, hinfo, hd] at hsucc
      | ok rd =>
        by_cases hrd : rd = 0
        · subst hrd
          cases hg : env.globResult with
          | nil => simp [download_and_encode, dae_body, hm, hinfo, hd, hg] at hsucc
          | cons g gs =>
            by_cases hc : check_nvenc_available env
            · cases hn : env.nvencRun with
              | exc => simp [download_and_encode, dae_body, hm, hinfo, hd, hg, hc, hn] at hsucc
              | ok rn =>
                by_cases hrn : rn = 0
                · subst hrn
                  simp [download_and_encode, dae_body, hm, hinfo, hd, hg, hc, hn] at hsucc
                  exact hsucc.symm
                · cases hcp : env.cpuRun with
                  | exc =>
                    simp [download_and_encode, dae_body, hm, hinfo, hd, hg, hc, hn, hrn, hcp]
                      at hsucc
                  | ok rc =>
                    by_cases hrc : rc = 0
                    · subst hrc
                      simp [download_and_encode, dae_body, hm, hinfo, hd, hg, hc, hn, hrn, hcp]
                        at hsucc
                      exact hsucc.symm
                    · simp [download_and_encode, dae_body, hm, hinfo, hd, hg, hc, hn, hrn, hcp,
                        hrc] at hsucc
            · cases hcp : env.cpuRun with
              | exc =>
                simp [download_and_encode, dae_body, hm, hinfo, hd, hg, hc, hcp] at hsucc
              | ok rc =>
                by_cases hrc : rc = 0
                · subst hrc
                  simp [download_and_encode, dae_body, hm, hinfo, hd, hg, hc, hcp] at hsucc
                  exact hsucc.symm
                · simp [download_and_encode, dae_body, hm, hinfo, hd, hg, hc, hcp, hrc] at hsucc
        · simp [download_and_encode, dae_body, hm, hinfo, hd, hrd] at hsucc
    · simp [download_and_encode, dae_body, hm, hinfo, hri] at hsucc

/-- C6 witness: the successful `envBase` job's path, checked against the
naming scheme applied to the job-start clock. -/
theorem output_name_witness :
    "/app/output/My_Video__-03-05-24_14:30-x220.mp4"
      = "/app/output/"
        ++ outputFilename (safeTitle (titleOf "My Video!!\nMy Video!!.mp4"))
            (strftime_stamp (envBase.timeline 0)) :=
  output_name_from_start_time envBase "u" 0 "My Video!!\nMy Video!!.mp4"
    "/app/output/My_Video__-03-05-24_14:30-x220.mp4" rfl rfl

/-- C10: the capability probe is total — when its subprocess raises, the
bare `except` of `check_nvenc_available` turns the raise into `False`
(never propagating the exception), no hardware encode is ever invoked,
and any job that reaches the probe falls through to the software encode
path. -/
theorem nvenc_probe_total (env : Env) (url : String)
    (he : env.encodersRun = PyResult.exc) :
    check_nvenc_available env = false
  ∧ Ev.nvencCmd ∉ (download_and_encode env url).1
  ∧ (Ev.encodersCmd ∈ (download_and_encode env url).1 →
      Ev.cpuCmd ∈ (download_and_encode env url).1) := by
  have hc : check_nvenc_available env = false := by
    simp [check_nvenc_available, he]
  refine ⟨hc, ?_, ?_⟩
  all_goals {
    cases hm : env.mkdirRes with
    | exc => simp [download_and_encode, dae_body, hm]
    | ok u =>
      cases hi : env.infoRun with
      | exc => simp [download_and_encode, dae_body, hm, hi]
      | ok p =>
        obtain ⟨ri, si⟩ := p
        by_cases hri : ri = 0
        · cases hd : env.downloadRun with
          | exc => simp [download_and_encode, dae_body, hm, hi, hri, hd]
          | ok rd =>
            by_cases hrd : rd = 0
            · cases hg : env.globResult with
              | nil => simp [download_and_encode, dae_body, hm, hi, hri, hd, hrd, hg]
              | cons g gs =>
                cases hcp : env.cpuRun with
                | exc => simp [download_and_encode, dae_body, hm, hi, hri, hd, hrd, hg, hc, hcp]
                | ok rc =>
                  by_cases hrc : rc = 0 <;>
                    simp [download_and_encode, dae_body, hm, hi, hri, hd, hrd, hg, hc, hcp, hrc]
            · simp [download_and_encode, dae_body, hm, hi, hri, hd, hrd]
        · simp [download_and_encode, dae_body, hm, hi, hri]
  }

/-- C10 witness: in a world whose encoder-listing call raises, the probe
answers `false`, the trace holds no hardware invocation, and the probe
having run implies the software path ran. -/
theorem nvenc_probe_witness :
    check_nvenc_available envProbeExc = false
  ∧ Ev.nvencCmd ∉ (download_and_encode envProbeExc "u").1
  ∧ (Ev.encodersCmd ∈ (download_and_encode envProbeExc "u").1 →
      Ev.cpuCmd ∈ (download_and_encode envProbeExc "u").1) :=
  nvenc_probe_total envProbeExc "u" rfl

theorem pad2_length (n : Nat) (h : n < 100) : (pad2 n).length = 2 := by
  interval_cases n <;> rfl

theorem strftime_stamp_length (d : DateTime) (hm : d.month < 100) (hd : d.day < 100)
    (hh : d.hour < 100) (hmin : d.minute < 100) :
    (strftime_stamp d).length = 14 := by
  have hy : d.year % 100 < 100 := Nat.mod_lt _ (by omega)
  simp only [strftime_stamp, String.length_append, pad2_length, hm, hd, hh, hmin, hy]
  rfl

/-- C9: output filenames are a function of the (sanitized title,
minute-resolution timestamp) pair and carry the fixed profile suffix
`-x220.mp4`: two filenames are equal exactly when both the sanitized
titles and the rendered `MM-DD-YY_HH:MM` timestamps agree — so two jobs
with identical pair collide on the identical filename, distinct
filenames require the titles or the minute-resolution timestamps to
differ, and same-title jobs whose timestamps differ at minute resolution
do not collide.  The bounds are the field ranges `strftime` guarantees
for a real `datetime`. -/
theorem filename_unique_per_pair (t t2 : String) (d d2 : DateTime)
    (hm : d.month < 100) (hd : d.day < 100) (hh : d.hour < 100) (hmin : d.minute < 100)
    (hm2 : d2.month < 100) (hd2 : d2.day < 100) (hh2 : d2.hour < 100) (hmin2 : d2.minute < 100) :
    (outputFilename (safeTitle t) (strftime_stamp d)
        = outputFilename (safeTitle t2) (strftime_stamp d2)
      ↔ (safeTitle t = safeTitle t2 ∧ strftime_stamp d = strftime_stamp d2))
  ∧ outputFilename (safeTitle t) (strftime_stamp d)
      = (safeTitle t ++ "-" ++ strftime_stamp d) ++ "-x220.mp4" := by
  refine ⟨⟨?_, ?_⟩, rfl⟩
  · intro h
    have hdata := congrArg String.data h
    simp only [outputFilename, String.data_append] at hdata
    have hlen : (strftime_stamp d).data.length = (strftime_stamp d2).data.length := by
      have e1 : (strftime_stamp d).length = 14 := strftime_stamp_length d hm hd hh hmin
      have e2 : (strftime_stamp d2).length = 14 := strftime_stamp_length d2 hm2 hd2 hh2 hmin2
      have r1 : (strftime_stamp d).data.length = (strftime_stamp d).length := rfl
      have r2 : (strftime_stamp d2).data.length = (strftime_stamp d2).length := rfl
      omega
    have step1 := List.append_inj' hdata rfl
    have step2 := List.append_inj' step1.1 hlen
    have step3 := List.append_inj' step2.1 rfl
    exact ⟨String.ext step3.1, String.ext step2.2⟩
  · rintro ⟨h1, h2⟩
    rw [outputFilename, outputFilename, h1, h2]

theorem countLeading_le (f : Char → Bool) (s : List Char) : countLeading f s ≤ s.length := by
  induction s with
  | nil => simp [countLeading]
  | cons c rest ih =>
    simp only [countLeading, List.length_cons]
    split <;> omega

theorem take_countLeading_sat (f : Char → Bool) (s : List Char) :
    ∀ c ∈ s.take (countLeading f s), f c = true := by
  induction s with
  | nil => simp
  | cons c rest ih =>
    simp only [countLeading]
    split
    · next hfc =>
      intro x hx
      rw [List.take_succ_cons] at hx
      rcases List.mem_cons.mp hx with h | h
      · exact h ▸ hfc
      · exact ih x h
    · simp

theorem isPrefixOf_eq_take (l : List Char) (s : List Char)
    (h : l.isPrefixOf s = true) : s.take l.length = l := by
  induction l generalizing s with
  | nil => simp
  | cons a as ih =>
    cases s with
    | nil => simp [List.isPrefixOf] at h
    | cons b bs =>
      simp only [List.isPrefixOf, Bool.and_eq_true, beq_iff_eq] at h
      simp [h.1.symm, ih bs h.2]

theorem matchSeq_sound (items : List PItem) (f : Char → Bool) :
    ∀ (s : List Char) (n : Nat), matchSeq items f s = some n →
      SeqMatches items f (s.take n) := by
  induction items with
  | nil =>
    intro s n h
    simp only [matchSeq] at h
    split at h
    · exact absurd h (by simp)
    · next hk =>
      have hn : n = countLeading f s := by
        simpa using h.symm
      subst hn
      refine SeqMatches.done ?_ (take_countLeading_sat f s)
      have hle := countLeading_le f s
      intro hnil
      have hlen : (s.take (countLeading f s)).length = countLeading f s := by
        rw [List.length_take]; omega
      rw [hnil] at hlen
      simp at hlen
      omega
  | cons it rest ih =>
    intro s n h
    cases it with
    | lit l =>
      simp only [matchSeq] at h
      split at h
      · next hpre =>
        rcases Option.map_eq_some'.mp h with ⟨m, hm, hn⟩
        subst hn
        have : s.take (m + l.length) = l ++ (s.drop l.length).take m := by
          rw [Nat.add_comm, List.take_add, isPrefixOf_eq_take l s hpre]
        rw [this]
        exact SeqMatches.lit (ih _ m hm)
      · exact absurd h (by simp)
    | opt l =>
      simp only [matchSeq] at h
      split at h
      · next hpre =>
        split at h
        · next m hm =>
          have hn : n = m + l.length := by simpa using h.symm
          subst hn
          have : s.take (m + l.length) = l ++ (s.drop l.length).take m := by
            rw [Nat.add_comm, List.take_add, isPrefixOf_eq_take l s hpre]
          rw [this]
          exact SeqMatches.optSome (ih _ m hm)
        · exact SeqMatches.optNone (ih _ n h)
      · exact SeqMatches.optNone (ih _ n h)

theorem findallF_sound (p : UrlPattern) :
    ∀ (fuel : Nat) (s : List Char), ∀ u ∈ findallF p fuel s,
      PatMatches p u ∧ ∃ pre post, s = pre ++ u ++ post := by
  intro fuel
  induction fuel with
  | zero => intro s u h; simp [findallF] at h
  | succ fuel ih =>
    intro s u h
    cases s with
    | nil => simp [findallF] at h
    | cons c rest =>
      simp only [findallF] at h
      split at h
      · next n hmp =>
        rcases List.mem_cons.mp h with h | h
        · subst h
          refine ⟨matchSeq_sound p.parts p.tailClass _ n hmp, [], (c :: rest).drop n, ?_⟩
          simp
        · rcases ih _ u h with ⟨hmat, pre, post, hsplit⟩
          exact ⟨hmat, (c :: rest).take n ++ pre, post, by
            conv_lhs => rw [← List.take_append_drop n (c :: rest)]
            rw [hsplit]
            simp⟩
      · rcases ih rest u h with ⟨hmat, pre, post, hsplit⟩
        exact ⟨hmat, c :: pre, post, by simp [hsplit]⟩

theorem foldl_append_eq_flatten (g : UrlPattern → List (List Char)) (ps : List UrlPattern) :
    ∀ acc : List (List Char),
      ps.foldl (fun acc p => acc ++ g p) acc = acc ++ (ps.map g).flatten := by
  induction ps with
  | nil => intro acc; simp
  | cons p ps ih => intro acc; simp [ih]

/-- C5: the URL extractor is a total function (it cannot raise — every
branch of its recursion returns a list); every element it returns is a
full match of at least one configured pattern and occurs as a substring
of the input; text with no matching substring yields the empty sequence;
and the result is the plain per-pattern concatenation of all match
occurrences — nothing is deduplicated, as the repeated-URL example
shows. -/
theorem extractor_contract :
    (∀ (msg u : String), u ∈ extract_video_urls msg →
      ∃ p ∈ url_patterns, PatMatches p u.toList
        ∧ ∃ pre post, msg.toList = pre ++ u.toList ++ post)
  ∧ (∀ msg : String,
      (∀ p ∈ url_patterns, ∀ u pre post, msg.toList = pre ++ u ++ post → ¬ PatMatches p u) →
      extract_video_urls msg = [])
  ∧ (∀ msg : String,
      extract_video_urls msg
        = ((url_patterns.map (fun p => findall p msg.toList)).flatten).map
            (fun l => String.mk l))
  ∧ extract_video_urls "hello world, no links here" = []
  ∧ extract_video_urls "https://youtu.be/abc and https://youtu.be/abc"
      = ["https://youtu.be/abc", "https://youtu.be/abc"] := by
  have hshape : ∀ msg : String,
      extract_video_urls msg
        = ((url_patterns.map (fun p => findall p msg.toList)).flatten).map
            (fun l => String.mk l) := by
    intro msg
    rw [extract_video_urls, foldl_append_eq_flatten]
    simp
  have hmem : ∀ (msg u : String), u ∈ extract_video_urls msg →
      ∃ p ∈ url_patterns, ∃ l ∈ findall p msg.toList, u = String.mk l := by
    intro msg u hu
    rw [hshape] at hu
    rcases List.mem_map.mp hu with ⟨l, hl, rfl⟩
    rcases List.mem_flatten.mp hl with ⟨ll, hll, hmem2⟩
    rcases List.mem_map.mp hll with ⟨p, hp, rfl⟩
    exact ⟨p, hp, l, hmem2, rfl⟩
  refine ⟨?_, ?_, hshape, by rfl, by rfl⟩
  · intro msg u hu
    rcases hmem msg u hu with ⟨p, hp, l, hl, rfl⟩
    rcases findallF_sound p _ _ l hl with ⟨hmat, pre, post, hsplit⟩
    have : (String.mk l).toList = l := rfl
    rw [this]
    exact ⟨p, hp, hmat, pre, post, hsplit⟩
  · intro msg hnone
    rw [List.eq_nil_iff_forall_not_mem]
    intro u hu
    rcases hmem msg u hu with ⟨p, hp, l, hl, rfl⟩
    rcases findallF_sound p _ _ l hl with ⟨hmat, pre, post, hsplit⟩
    exact hnone p hp l pre post hsplit hmat

/-- C9 witness: concrete titles and datetimes instantiating the
uniqueness equivalence. -/
theorem filename_unique_witness :
    (outputFilename (safeTitle "My Video!!") (strftime_stamp ⟨2024, 3, 5, 14, 30⟩)
        = outputFilename (safeTitle "My.Video") (strftime_stamp ⟨2024, 3, 5, 14, 31⟩)
      ↔ (safeTitle "My Video!!" = safeTitle "My.Video"
          ∧ strftime_stamp ⟨2024, 3, 5, 14, 30⟩ = strftime_stamp ⟨2024, 3, 5, 14, 31⟩))
  ∧ outputFilename (safeTitle "My Video!!") (strftime_stamp ⟨2024, 3, 5, 14, 30⟩)
      = (safeTitle "My Video!!" ++ "-" ++ strftime_stamp ⟨2024, 3, 5, 14, 30⟩) ++ "-x220.mp4" :=
  filename_unique_per_pair "My Video!!" "My.Video" ⟨2024, 3, 5, 14, 30⟩ ⟨2024, 3, 5, 14, 31⟩
    (by decide) (by decide) (by decide) (by decide)
    (by decide) (by decide) (by decide) (by decide)
